import Mathlib

/-
  Verification of the Roxy Discord bot against its specification.

  Shallow embedding of the relevant parts of the source:
  * src/cogs/moderation.py  — per-guild case log, timeout duration validation,
                              reaction-based confirmation for kick/ban
  * src/cogs/prefix.py      — per-guild dynamic command prefixes
  * src/cogs/eng.py         — vocabulary store, AI-gated commands
  * src/cogs/music.py       — per-guild music queue state machine
  * src/cogs/error_handler.py — global command error handler
  * src/cogs/power.py       — restart/shutdown confirmation codes

  SQLite tables are modelled as lists of rows; the AUTOINCREMENT rowid
  sequence is modelled by an explicit counter.  Python strings touched by
  lower()/strip() are modelled as lists of byte values so that the ASCII
  semantics of those functions is explicit.
-/

namespace Roxy

/-! ## Moderation case log (src/cogs/moderation.py) -/

/-- A row of the per-guild `cases` table created by
`Moderation._ensure_guild_tables_exist`:
`(case_id, user_id, moderator_id, action, reason, timestamp, duration)`.
The timestamp column is a wall-clock default and is not modelled. -/
structure Case where
  case_id : Nat
  user_id : Nat
  moderator_id : Nat
  action : String
  reason : Option String
  duration : Option String
deriving DecidableEq, Repr

/-- The per-guild `cases_{guild_id}` table: its rows plus the sqlite
AUTOINCREMENT sequence (largest rowid ever issued; rows are never deleted,
so the next id is always `seq + 1`). -/
structure CasesTable where
  rows : List Case
  seq : Nat
deriving DecidableEq, Repr

/-- A freshly created (empty) cases table. -/
def CasesTable.empty : CasesTable := ⟨[], 0⟩

/-- `Moderation.create_case`: INSERT one row; sqlite assigns
`case_id = seq + 1` (AUTOINCREMENT) and `cursor.lastrowid` is returned. -/
def create_case (t : CasesTable) (user_id moderator_id : Nat) (action : String)
    (reason duration : Option String) : CasesTable × Nat :=
  let cid := t.seq + 1
  (⟨t.rows ++ [⟨cid, user_id, moderator_id, action, reason, duration⟩], cid⟩, cid)

/-- `Moderation.get_case`: SELECT * WHERE case_id = ? and return the row. -/
def get_case (t : CasesTable) (case_id : Nat) : Option Case :=
  t.rows.find? (fun c => c.case_id == case_id)

/-- Invariant of every reachable cases table: the rows carry the ids
`1, 2, ..., seq` in insertion order (rows are appended and never deleted). -/
def CasesTable.wellFormed (t : CasesTable) : Prop :=
  t.rows.map Case.case_id = List.range' 1 t.seq

/-- The whole moderation database: one `cases_{guild_id}` table per guild
(`Moderation._get_guild_table_name` makes the tables guild-local). -/
def ModDB : Type := Nat → CasesTable

/-- `create_case` acting on the guild-local table of `guild_id` only. -/
def create_case_db (db : ModDB) (guild_id user_id moderator_id : Nat)
    (action : String) (reason duration : Option String) : ModDB × Nat :=
  let r := create_case (db guild_id) user_id moderator_id action reason duration
  (fun g => if g = guild_id then r.1 else db g, r.2)

/-- `Moderation.format_duration`: renders seconds as "1d 2h 3m 4s". -/
def format_duration (total_seconds : Int) : String :=
  if total_seconds ≤ 0 then "0s"
  else
    let secs : Nat := total_seconds.toNat
    let days := secs / 86400
    let rem := secs % 86400
    let hours := rem / 3600
    let rem2 := rem % 3600
    let mins := rem2 / 60
    let secs_final := rem2 % 60
    let parts : List String :=
      (if days ≠ 0 then [toString days ++ "d"] else []) ++
      (if hours ≠ 0 then [toString hours ++ "h"] else []) ++
      (if mins ≠ 0 then [toString mins ++ "m"] else [])
    let parts := if secs_final ≠ 0 ∨ parts = [] then parts ++ [toString secs_final ++ "s"] else parts
    String.intercalate " " parts

/-- Maximum timeout duration accepted by `Moderation.timeout`
(`max_timeout_seconds = 28 * 24 * 60 * 60`). -/
def max_timeout_seconds : Int := 28 * 24 * 60 * 60

/-- User-visible outcome of the timeout command. -/
inductive TimeoutReply where
  | invalidFormat
  | invalidDuration
  | applied (case_id : Nat) (duration_str : String)
  | apiError
deriving DecidableEq, Repr

/-- `Moderation.timeout`, from the point where the duration string has been
handed to `pytimeparse.parse` (modelled by its result `parsed`; `none` is the
unparsable case raising `ValueError`).  The earlier self/bot/hierarchy checks
are assumed to have passed.  `apiOk` models whether the
`member.timeout(...)` API call succeeds.  Returns the new table, the reply,
and whether a timeout was actually applied to the member. -/
def timeout_command (t : CasesTable) (user_id moderator_id : Nat)
    (parsed : Option Int) (reason : Option String) (apiOk : Bool) :
    CasesTable × TimeoutReply × Bool :=
  match parsed with
  | none => (t, .invalidFormat, false)
  | some seconds =>
    if 0 < seconds ∧ seconds ≤ max_timeout_seconds then
      let ds := format_duration seconds
      let r := create_case t user_id moderator_id "timeout" reason (some ds)
      if apiOk then (r.1, .applied r.2 ds, true) else (r.1, .apiError, false)
    else (t, .invalidDuration, false)

/-! ## Dynamic prefixes (src/cogs/prefix.py) -/

/-- `DynamicPrefix.default_prefix` — the immutable default prefix "i.". -/
def default_prefix_val : String := "i."

/-- The `guild_prefixes` table: `(guild_id, prefix)` rows with a primary key
on the pair, mirrored in `prefix_cache`.  Modelled as one list of pairs. -/
abbrev PrefixDb := List (Nat × String)

/-- `DynamicPrefix.get_all_prefixes`: the default prefix plus the stored
custom prefixes of the guild. -/
def get_all_prefixes (db : PrefixDb) (guild_id : Nat) : List String :=
  default_prefix_val :: (db.filter (fun e => e.1 == guild_id)).map (fun e => e.2)

/-- `DynamicPrefix.add_prefix_to_db`: insert unless the `(guild, prefix)`
pair is already present; returns whether a row was inserted. -/
def add_prefix_to_db (db : PrefixDb) (guild_id : Nat) (pfx : String) :
    PrefixDb × Bool :=
  if (guild_id, pfx) ∈ db then (db, false)
  else (db ++ [(guild_id, pfx)], true)

/-- `DynamicPrefix.remove_prefix_from_db`: DELETE WHERE guild_id = ? AND
prefix = ?; returns whether any row was removed (`cursor.rowcount > 0`). -/
def remove_prefix_from_db (db : PrefixDb) (guild_id : Nat) (pfx : String) :
    PrefixDb × Bool :=
  let db' := db.filter (fun e => !(e.1 == guild_id && e.2 == pfx))
  if db'.length < db.length then (db', true) else (db, false)

/-- User-visible outcome of the prefix commands. -/
inductive PrefixReply where
  | emptyArg
  | tooLong
  | maxReached
  | isDefault
  | added
  | alreadyExists
  | removedOk
  | notFound
  | cannotRemoveDefault
  | cleared
deriving DecidableEq, Repr

/-- `DynamicPrefix.add_new_prefix` (the `prefix add` command body), with its
checks in source order: empty, length > 10, `len(get_all_prefixes) >= 10`,
equal to the default prefix, then `add_prefix_to_db`. -/
def add_new_prefix_cmd (db : PrefixDb) (guild_id : Nat) (pfx : String) :
    PrefixDb × PrefixReply :=
  if pfx = "" then (db, .emptyArg)
  else if pfx.length > 10 then (db, .tooLong)
  else if 10 ≤ (get_all_prefixes db guild_id).length then (db, .maxReached)
  else if pfx = default_prefix_val ∧ default_prefix_val ∈ get_all_prefixes db guild_id then
    (db, .isDefault)
  else
    let r := add_prefix_to_db db guild_id pfx
    if r.2 then (r.1, .added) else (r.1, .alreadyExists)

/-- `DynamicPrefix.remove_existing_prefix` (the `prefix remove` command):
refuses the default prefix, otherwise deletes via `remove_prefix_from_db`. -/
def remove_existing_prefix_cmd (db : PrefixDb) (guild_id : Nat) (pfx : String) :
    PrefixDb × PrefixReply :=
  if pfx = default_prefix_val then (db, .cannotRemoveDefault)
  else
    let r := remove_prefix_from_db db guild_id pfx
    if r.2 then (r.1, .removedOk) else (r.1, .notFound)

/-- `DynamicPrefix.clear_all_prefixes`: DELETE WHERE guild_id = ?. -/
def clear_all_prefixes (db : PrefixDb) (guild_id : Nat) :
    PrefixDb × PrefixReply :=
  (db.filter (fun e => !(e.1 == guild_id)), .cleared)

/-- One admin prefix operation. -/
inductive PrefixOp where
  | add (guild_id : Nat) (pfx : String)
  | remove (guild_id : Nat) (pfx : String)
  | clear (guild_id : Nat)
deriving DecidableEq, Repr

/-- State transition of the prefix store under one operation. -/
def applyPrefixOp (db : PrefixDb) : PrefixOp → PrefixDb
  | .add g p => (add_new_prefix_cmd db g p).1
  | .remove g p => (remove_existing_prefix_cmd db g p).1
  | .clear g => (clear_all_prefixes db g).1

/-- The prefix store reached from the empty store by a sequence of
operations. -/
def runPrefixOps (ops : List PrefixOp) : PrefixDb :=
  ops.foldl applyPrefixOp []

/-- Number of custom prefixes stored for a guild. -/
def guildPrefixCount (db : PrefixDb) (g : Nat) : Nat :=
  (db.filter (fun e => e.1 == g)).length

/-! ## Reaction confirmation for kick/ban (src/cogs/moderation.py) -/

/-- A `reaction_add` gateway event arriving during the confirmation window:
who reacted, on which message, and with which emoji. -/
structure ReactionEvent where
  user : Nat
  messageId : Nat
  emoji : String
deriving DecidableEq, Repr

/-- The `check` closure inside `Moderation._prompt_confirmation`:
the reaction must come from the invoking user, on the confirmation
message, and be one of ✅ / ❌. -/
def reactionCheck (author confirmMsgId : Nat) (r : ReactionEvent) : Bool :=
  r.user == author && r.messageId == confirmMsgId &&
    (r.emoji == "✅" || r.emoji == "❌")

/-- `bot.wait_for("reaction_add", check=check)`: the first event of the
window that passes the check, or `none` on timeout (no event qualifies
within `timeout_seconds`).  `events` is the chronological list of reaction
events arriving inside the window. -/
def waitForReaction (author confirmMsgId : Nat) (events : List ReactionEvent) :
    Option ReactionEvent :=
  events.find? (reactionCheck author confirmMsgId)

/-- `Moderation._prompt_confirmation`: confirmed iff the awaited reaction is
exactly ✅; a ❌ reaction, any timeout, or an exception all cancel. -/
def prompt_confirmation (author confirmMsgId : Nat)
    (events : List ReactionEvent) : Bool :=
  match waitForReaction author confirmMsgId events with
  | some r => r.emoji == "✅"
  | none => false

/-- Guild-visible state touched by kick/ban: the guild's cases table and
whether the targeted user is still a member (kick) / unbanned (ban). -/
structure ModActionState where
  table : CasesTable
  memberInGuild : Bool
deriving DecidableEq, Repr

/-- The tail of `Moderation.kick` / `Moderation.ban` after the permission and
hierarchy checks: prompt for confirmation; on cancel return with nothing
changed; on ✅ create the case row, then call the kick/ban API
(`apiOk` models whether that platform call succeeds — on failure the case row
remains but the member is not removed).  Returns the new state and whether
the member was actually removed. -/
def kick_ban_command (st : ModActionState) (author confirmMsgId : Nat)
    (events : List ReactionEvent) (action : String) (target_id : Nat)
    (reason : Option String) (apiOk : Bool) : ModActionState × Bool :=
  if prompt_confirmation author confirmMsgId events then
    let r := create_case st.table target_id author action reason none
    if apiOk then ({ table := r.1, memberInGuild := false }, true)
    else ({ st with table := r.1 }, false)
  else (st, false)

/-! ## Restart / shutdown confirmation codes (src/cogs/power.py) -/

/-- A message event arriving during the 15-second confirmation window. -/
structure MessageEvent where
  author : Nat
  channel : Nat
  content : String
deriving DecidableEq, Repr

/-- The `check` closure in `PowerCog.restart_command` /
`PowerCog.shutdown_command`: same author, same channel (content is not
filtered — the first message from the author in the channel is consumed). -/
def messageCheck (author channel : Nat) (m : MessageEvent) : Bool :=
  m.author == author && m.channel == channel

/-- `bot.wait_for("message", timeout=15.0, check=check)`: first qualifying
message inside the window, `none` on timeout. -/
def waitForMessage (author channel : Nat) (events : List MessageEvent) :
    Option MessageEvent :=
  events.find? (messageCheck author channel)

/-- Outcome of a power command: the side effect (`os.execv` replacing the
process, or `bot.close()`), or a cancellation with no side effect. -/
inductive PowerOutcome where
  | restarted
  | shutdownDone
  | incorrectCode
  | timedOut
deriving DecidableEq, Repr

/-- `PowerCog.restart_command` after the owner check: the process is replaced
iff the first qualifying message equals the random numeric code exactly. -/
def restart_command (author channel : Nat) (code : String)
    (events : List MessageEvent) : PowerOutcome :=
  match waitForMessage author channel events with
  | some m => if m.content == code then .restarted else .incorrectCode
  | none => .timedOut

/-- `PowerCog.shutdown_command` after the owner check. -/
def shutdown_command (author channel : Nat) (code : String)
    (events : List MessageEvent) : PowerOutcome :=
  match waitForMessage author channel events with
  | some m => if m.content == code then .shutdownDone else .incorrectCode
  | none => .timedOut

/-! ## Python string normalization for the vocabulary store (src/cogs/eng.py)

`save_word` runs `word.lower().strip()`.  Words are modelled as lists of
byte values; `lower` maps ASCII `A`-`Z` to `a`-`z` and `strip` removes
ASCII whitespace from both ends, which is exactly what the Python functions
do on ASCII input. -/

/-- One byte of `str.lower()`: ASCII uppercase is shifted down by 32. -/
def asciiLower (b : Nat) : Nat :=
  if 65 ≤ b ∧ b ≤ 90 then b + 32 else b

/-- `str.lower()` on an ASCII string. -/
def pyLower (w : List Nat) : List Nat := w.map asciiLower

/-- Whitespace bytes removed by `str.strip()`: HT LF VT FF CR SP. -/
def isPySpace (b : Nat) : Bool :=
  b == 9 || b == 10 || b == 11 || b == 12 || b == 13 || b == 32

/-- `str.strip()`: drop whitespace from the front, then from the back. -/
def pyStrip (w : List Nat) : List Nat :=
  ((w.dropWhile isPySpace).reverse.dropWhile isPySpace).reverse

/-- `word.lower().strip()` as run by `EnglishLearning.save_word`. -/
def cleanWord (w : List Nat) : List Nat := pyStrip (pyLower w)

/-- The `vocabulary` table: `(user_id, word)` rows with
`UNIQUE(user_id, word)`. -/
abbrev VocabDb := List (Nat × List Nat)

/-- User-visible outcome of `eng vocab save`. -/
inductive SaveReply where
  | emptyWord
  | saved
  | alreadySaved
deriving DecidableEq, Repr

/-- `EnglishLearning.save_word`: normalize, reject the empty result without
touching the database, otherwise INSERT — a duplicate `(user_id, word)` pair
raises `sqlite3.IntegrityError` (UNIQUE constraint), caught and reported as
"already saved" with nothing inserted. -/
def save_word (db : VocabDb) (user_id : Nat) (word : List Nat) :
    VocabDb × SaveReply :=
  let clean := cleanWord word
  if clean = [] then (db, .emptyWord)
  else if (user_id, clean) ∈ db then (db, .alreadySaved)
  else (db ++ [(user_id, clean)], .saved)

/-- Byte-wise lexicographic order — sqlite's default BINARY collation used
by `ORDER BY word`. -/
def lexLe : List Nat → List Nat → Bool
  | [], _ => true
  | _ :: _, [] => false
  | a :: as, b :: bs => if a < b then true else if b < a then false else lexLe as bs

/-- `EnglishLearning.list_vocab`:
`SELECT word FROM vocabulary WHERE user_id = ? ORDER BY word`. -/
def list_vocab (db : VocabDb) (user_id : Nat) : List (List Nat) :=
  List.insertionSort (fun a b => lexLe a b = true)
    ((db.filter (fun e => e.1 == user_id)).map (fun e => e.2))

/-- A sequence of `eng vocab save` invocations applied to the empty store. -/
def runSaves (ops : List (Nat × List Nat)) : VocabDb :=
  ops.foldl (fun db op => (save_word db op.1 op.2).1) []

/-! ## AI feature gating (src/cogs/eng.py) -/

/-- Python truthiness of the configured `GEMINI_API_KEY`
(unset / empty string are both falsy). -/
def keyTruthy : Option String → Bool
  | none => false
  | some s => !(s == "")

/-- `setup` in src/cogs/eng.py: the EnglishLearning cog is added to the bot
only when `GEMINI_API_KEY` is truthy; otherwise `setup` just returns and no
`eng` command exists. -/
def engCogLoaded (key : Option String) : Bool := keyTruthy key

/-- `EnglishLearning._initialize_model`: `None` when the key is unset,
otherwise the model object unless its construction raises
(`modelInitOk` models that). -/
def modelPresent (key : Option String) (modelInitOk : Bool) : Bool :=
  keyTruthy key && modelInitOk

/-- What an invocation of an AI-backed eng command produces. -/
structure EngOutcome where
  aiCalled : Bool
  reply : Option String
deriving DecidableEq, Repr

/-- The Thai "AI feature unavailable" message sent by `ai_command_check`. -/
def unavailableMessage : String :=
  "ขออภัยค่ะ ฟีเจอร์ AI ไม่พร้อมใช้งานในขณะนี้ โปรดตรวจสอบการตั้งค่า API key นะคะ"

/-- The `ai_command_check` decorator around a command body: when
`self.model` is absent, send the unavailable message and stop. -/
def ai_command_check (modelIsPresent : Bool) (body : EngOutcome) : EngOutcome :=
  if modelIsPresent then body else ⟨false, some unavailableMessage⟩

/-- Full dispatch of one AI-backed command (`eng check` / `eng word` /
`eng translate`): if the cog was never loaded the command name is unknown,
so the global handler's CommandNotFound branch produces no reply at all;
otherwise the decorator gates the body, which calls `_call_ai` and replies
with the AI text or an AI-error message. -/
def invokeAICommand (key : Option String) (modelInitOk : Bool)
    (aiResponse : Option String) : EngOutcome :=
  if engCogLoaded key then
    ai_command_check (modelPresent key modelInitOk)
      (match aiResponse with
       | some text => ⟨true, some text⟩
       | none => ⟨true, some "ขออภัยค่ะ เกิดข้อผิดพลาดในการสื่อสารกับ AI ค่ะ"⟩)
  else ⟨false, none⟩

/-! ## Music queue state machine (src/cogs/music.py) -/

/-- A Lavalink track reference; only identity matters for the queue. -/
structure Track where
  ident : Nat
deriving DecidableEq, Repr

/-- `GuildMusicState`: the per-guild in-memory music state. -/
structure GuildMusicState where
  queue : List Track
  volume : Nat
  autoplay : Bool
  disconnect_task : Bool
  current_track : Option Track
deriving DecidableEq, Repr

/-- Fresh state created by the `defaultdict(GuildMusicState)`. -/
def GuildMusicState.init : GuildMusicState :=
  ⟨[], 50, false, false, none⟩

/-- `MusicCog.play_next`: with no player connected, do nothing.  Otherwise
pop and play the head of the queue; with an empty queue clear the current
track and, when autoplay is on, play the related/fallback track found by the
external lookups (`autoplayPick`, `none` when both lookups fail); when
autoplay is off or found nothing, schedule the disconnect task.  Returns the
new state and the track handed to `player.play`, if any. -/
def play_next (playerConnected : Bool) (autoplayPick : Option Track)
    (st : GuildMusicState) : GuildMusicState × Option Track :=
  if !playerConnected then (st, none)
  else
    match st.queue with
    | t :: rest => ({ st with queue := rest, current_track := some t }, some t)
    | [] =>
      let st' := { st with current_track := none }
      if st'.autoplay then
        match autoplayPick with
        | some t => ({ st' with current_track := some t }, some t)
        | none => ({ st' with disconnect_task := true }, none)
      else ({ st' with disconnect_task := true }, none)

/-- The inactivity window slept by `MusicCog.disconnect_after_timeout`
(`await asyncio.sleep(30)`). -/
def disconnect_timeout_seconds : Nat := 30

/-- `MusicCog.disconnect_after_timeout` after the sleep: disconnect the
voice client when one is connected, and delete the guild's entry from
`guild_states` in any case.  Returns the new `guild_states` map and whether
the player was disconnected. -/
def disconnect_after_timeout (states : List (Nat × GuildMusicState))
    (guild_id : Nat) (voiceConnected : Bool) :
    List (Nat × GuildMusicState) × Bool :=
  (states.filter (fun e => !(e.1 == guild_id)), voiceConnected)

/-- One `play_next` step with a connected player and autoplay lookups
yielding nothing (the configuration of the C6 scenario). -/
def playNextStep (st : GuildMusicState) : GuildMusicState :=
  (play_next true none st).1

/-! ## Global error handler (src/cogs/error_handler.py) -/

/-- The command-context data the handler reads. -/
structure ErrCtx where
  authorId : Nat
  command : Option (String × String)
  invokedWith : String
  cleanPrefix : String
  commandHasLocalHandler : Bool
  cogHasErrorHandler : Bool
deriving DecidableEq, Repr

/-- The error classes distinguished by `ErrorHandler.on_command_error`, in
the order of its isinstance chain (only the data the branches read is
carried). -/
inductive CommandErr where
  | commandNotFound
  | notOwner
  | disabledCommand
  | commandOnCooldown (retryAfter : Nat)
  | maxConcurrencyReached
  | missingRequiredArgument (paramName : String)
  | memberNotFound (argument : String)
  | missingPermissions
  | checkFailure
  | unclassified
deriving DecidableEq, Repr

/-- A reply embed sent to the user. -/
structure Reply where
  title : String
  description : String
  fields : List (String × String)
deriving DecidableEq, Repr

/-- Markdown code block wrapper used by the usage-hint field. -/
def codeBlock (s : String) : String := "```\n" ++ s ++ "\n```"

/-- The `Correct Usage` string:
`f"{display_prefix}{ctx.command.qualified_name} {ctx.command.signature or ''}".strip()`. -/
def usageSignature (cleanPrefix name signature : String) : String :=
  (cleanPrefix ++ name ++ " " ++ signature).trim

/-- `command_name = ctx.command.qualified_name if ctx.command else ctx.invoked_with`. -/
def commandName (ctx : ErrCtx) : String :=
  match ctx.command with
  | some (name, _) => name
  | none => ctx.invokedWith

/-- `ErrorHandler.on_command_error`: `none` means the handler sends nothing
to the user (it may still log to the console or a file).  The two leading
guards skip commands that have a command-local `on_error` or whose cog
overrides `cog_command_error` (the Music cog does, and purge/hardpurge have
local handlers). -/
def on_command_error (ctx : ErrCtx) (err : CommandErr) : Option Reply :=
  if ctx.commandHasLocalHandler then none
  else if ctx.cogHasErrorHandler then none
  else
    match err with
    | .commandNotFound => none
    | .notOwner => none
    | .disabledCommand =>
      some ⟨"⚙️ Command Disabled",
        "The command `" ++ commandName ctx ++ "` is currently disabled.", []⟩
    | .commandOnCooldown retryAfter =>
      some ⟨"⏳ Cooldown!",
        "This command is on cooldown.\nPlease try again in **" ++
          toString retryAfter ++ " seconds**.", []⟩
    | .maxConcurrencyReached =>
      some ⟨"🚦 Command Busy", "Maximum concurrent usage reached.", []⟩
    | .missingRequiredArgument param =>
      some ⟨"❌ Missing Argument",
        "You missed the required argument: `" ++ param ++ "`.",
        match ctx.command with
        | some (name, signature) =>
          [("Correct Usage", codeBlock (usageSignature ctx.cleanPrefix name signature))]
        | none => []⟩
    | .memberNotFound arg =>
      some ⟨"⚠️ Input Error", "Could not find a member matching `" ++ arg ++ "`.", []⟩
    | .missingPermissions =>
      some ⟨"🚫 Missing Permissions",
        "You lack the required permission(s) to run this command.", []⟩
    | .checkFailure =>
      some ⟨"🚫 Check Failed",
        "You do not meet the necessary conditions to run this command.", []⟩
    | .unclassified =>
      some ⟨"🔥 Unexpected Error",
        "An unexpected internal error occurred. This issue has been logged.", []⟩

/-! ## Helper lemmas -/

/-- Every id in a well-formed cases table is at most the sequence counter. -/
theorem wellFormed_id_le {t : CasesTable} (h : t.wellFormed) :
    ∀ c ∈ t.rows, c.case_id ≤ t.seq := by
  intro c hc
  have hmem : c.case_id ∈ t.rows.map Case.case_id := List.mem_map_of_mem _ hc
  rw [h] at hmem
  rcases List.mem_range'.mp hmem with ⟨i, hi, heq⟩
  omega

/-- Looking up an id beyond the sequence counter finds nothing. -/
theorem get_case_none_of_gt {t : CasesTable} (h : t.wellFormed) {cid : Nat}
    (hgt : t.seq < cid) : get_case t cid = none := by
  unfold get_case
  rw [List.find?_eq_none]
  intro c hc
  have hle := wellFormed_id_le h c hc
  simp only [beq_iff_eq]
  omega

/-- The default prefix heads every active prefix list. -/
theorem default_mem_get_all_prefixes (db : PrefixDb) (g : Nat) :
    default_prefix_val ∈ get_all_prefixes db g := by
  simp [get_all_prefixes]

/-- Membership in the active prefix list of a guild. -/
theorem mem_get_all_prefixes (db : PrefixDb) (g : Nat) (s : String) :
    s ∈ get_all_prefixes db g ↔ s = default_prefix_val ∨ (g, s) ∈ db := by
  simp only [get_all_prefixes, List.mem_cons, List.mem_map, List.mem_filter,
    beq_iff_eq]
  constructor
  · rintro (rfl | ⟨⟨a, b⟩, ⟨hmem, rfl⟩, rfl⟩)
    · exact Or.inl rfl
    · exact Or.inr hmem
  · rintro (rfl | hmem)
    · exact Or.inl rfl
    · exact Or.inr ⟨(g, s), ⟨hmem, rfl⟩, rfl⟩

/-- The active list is the default prefix plus one entry per stored custom
prefix of the guild. -/
theorem get_all_prefixes_length (db : PrefixDb) (g : Nat) :
    (get_all_prefixes db g).length = 1 + guildPrefixCount db g := by
  simp [get_all_prefixes, guildPrefixCount, Nat.add_comm]

/-- Appending one row changes only its own guild's custom count. -/
theorem guildPrefixCount_append_single (db : PrefixDb) (g g' : Nat) (p : String) :
    guildPrefixCount (db ++ [(g', p)]) g =
      guildPrefixCount db g + (if g' = g then 1 else 0) := by
  unfold guildPrefixCount
  rw [List.filter_append, List.length_append]
  congr 1
  by_cases hg : g' = g <;> simp [hg]

/-- Filtering rows out never increases a guild's custom count. -/
theorem guildPrefixCount_filter_le (db : PrefixDb) (q : Nat × String → Bool)
    (g : Nat) : guildPrefixCount (db.filter q) g ≤ guildPrefixCount db g :=
  List.Sublist.length_le (List.Sublist.filter _ (List.filter_sublist db))

/-- The add command either leaves the store unchanged, or appends exactly
the one new pair — and then the pre-state was below the cap. -/
theorem add_new_prefix_cmd_result (db : PrefixDb) (g : Nat) (p : String) :
    (add_new_prefix_cmd db g p).1 = db ∨
    ((add_new_prefix_cmd db g p).1 = db ++ [(g, p)] ∧
      ¬10 ≤ (get_all_prefixes db g).length) := by
  unfold add_new_prefix_cmd add_prefix_to_db
  split_ifs with h1 h2 h3 h4 h5 <;> simp_all

/-- A rejected or duplicate add leaves the store unchanged and does not
report success. -/
theorem add_new_prefix_cmd_rejected {db : PrefixDb} {g : Nat} {p : String}
    (h : (g, p) ∈ db ∨ p = default_prefix_val) :
    (add_new_prefix_cmd db g p).1 = db ∧
      (add_new_prefix_cmd db g p).2 ≠ PrefixReply.added := by
  unfold add_new_prefix_cmd
  split_ifs with h1 h2 h3 h4
  · exact ⟨rfl, by simp⟩
  · exact ⟨rfl, by simp⟩
  · exact ⟨rfl, by simp⟩
  · exact ⟨rfl, by simp⟩
  · have hp : (g, p) ∈ db := by
      rcases h with h | h
      · exact h
      · exact absurd ⟨h, default_mem_get_all_prefixes db g⟩ h4
    simp [add_prefix_to_db, hp]

/-- The remove command either leaves the store unchanged or filters the
targeted pair out. -/
theorem remove_existing_prefix_cmd_result (db : PrefixDb) (g : Nat)
    (p : String) :
    (remove_existing_prefix_cmd db g p).1 = db ∨
    (remove_existing_prefix_cmd db g p).1 =
      db.filter (fun e => !(e.1 == g && e.2 == p)) := by
  unfold remove_existing_prefix_cmd remove_prefix_from_db
  split
  · exact Or.inl rfl
  · dsimp only
    split
    · exact Or.inr rfl
    · exact Or.inl rfl

/-- Each single prefix operation preserves the 9-custom-prefixes bound. -/
theorem applyPrefixOp_count_le {db : PrefixDb} {g : Nat}
    (h : guildPrefixCount db g ≤ 9) (op : PrefixOp) :
    guildPrefixCount (applyPrefixOp db op) g ≤ 9 := by
  cases op with
  | add g' p =>
    show guildPrefixCount (add_new_prefix_cmd db g' p).1 g ≤ 9
    rcases add_new_prefix_cmd_result db g' p with heq | ⟨heq, hlt⟩
    · rw [heq]; exact h
    · rw [heq, guildPrefixCount_append_single]
      by_cases hg : g' = g
      · rw [get_all_prefixes_length] at hlt
        subst hg
        rw [if_pos rfl]
        omega
      · rw [if_neg hg]
        omega
  | remove g' p =>
    show guildPrefixCount (remove_existing_prefix_cmd db g' p).1 g ≤ 9
    rcases remove_existing_prefix_cmd_result db g' p with heq | heq
    · rw [heq]; exact h
    · rw [heq]
      exact le_trans (guildPrefixCount_filter_le db _ g) h
  | clear g' =>
    show guildPrefixCount (clear_all_prefixes db g').1 g ≤ 9
    exact le_trans (guildPrefixCount_filter_le db _ g) h

/-- The bound holds in every reachable prefix store. -/
theorem runPrefixOps_count_le (ops : List PrefixOp) (g : Nat) :
    guildPrefixCount (runPrefixOps ops) g ≤ 9 := by
  unfold runPrefixOps
  suffices hgen : ∀ db : PrefixDb, guildPrefixCount db g ≤ 9 →
      guildPrefixCount (ops.foldl applyPrefixOp db) g ≤ 9 by
    exact hgen [] (by simp [guildPrefixCount])
  induction ops with
  | nil => intro db h; exact h
  | cons op rest ih =>
    intro db h
    exact ih _ (applyPrefixOp_count_le h op)

/-- A guild that already stores 9 custom prefixes rejects any well-formed
new prefix with the maximum-reached message and stores nothing. -/
theorem add_new_prefix_cmd_max {db : PrefixDb} {g : Nat}
    (h9 : guildPrefixCount db g = 9) {p : String} (hne : p ≠ "")
    (hlen : p.length ≤ 10) :
    add_new_prefix_cmd db g p = (db, PrefixReply.maxReached) := by
  unfold add_new_prefix_cmd
  rw [if_neg hne, if_neg (by omega), if_pos (by rw [get_all_prefixes_length, h9])]

/-! ## Claim theorems -/

/-- Claim C2: every moderation action that passes its checks inserts exactly
one new row into the invoking guild's cases table; the new `case_id` is the
guild-local successor of the previous case's id; `get_case` on the new id
returns a record with exactly the action, reason and duration passed to
`create_case` (and found nothing there before); well-formedness is preserved
and no other guild's table is touched. -/
theorem C2_case_log_sequential (t : CasesTable) (h : t.wellFormed)
    (u m : Nat) (a : String) (r d : Option String) :
    (create_case t u m a r d).1.rows.length = t.rows.length + 1 ∧
    (create_case t u m a r d).2 = t.seq + 1 ∧
    (∀ last, t.rows.getLast? = some last →
      (create_case t u m a r d).2 = last.case_id + 1) ∧
    get_case (create_case t u m a r d).1 (create_case t u m a r d).2 =
      some ⟨(create_case t u m a r d).2, u, m, a, r, d⟩ ∧
    get_case t (create_case t u m a r d).2 = none ∧
    (create_case t u m a r d).1.wellFormed ∧
    (∀ (db : ModDB) (g g' : Nat), g' ≠ g →
      (create_case_db db g u m a r d).1 g' = db g') := by
  refine ⟨by simp [create_case], rfl, ?_, ?_, ?_, ?_, ?_⟩
  · intro last hlast
    have hmap := congrArg List.getLast? h
    rw [List.getLast?_map, hlast, List.getLast?_range'] at hmap
    by_cases hs : t.seq = 0
    · rw [if_pos hs] at hmap
      simp at hmap
    · rw [if_neg hs] at hmap
      simp only [Option.map_some', Option.some.injEq] at hmap
      show t.seq + 1 = last.case_id + 1
      omega
  · have hnone : List.find? (fun c => c.case_id == t.seq + 1) t.rows = none := by
      rw [List.find?_eq_none]
      intro c hc
      have hle := wellFormed_id_le h c hc
      simp only [beq_iff_eq]
      omega
    show get_case ⟨t.rows ++ [(⟨t.seq + 1, u, m, a, r, d⟩ : Case)], t.seq + 1⟩
        (t.seq + 1) = some (⟨t.seq + 1, u, m, a, r, d⟩ : Case)
    unfold get_case
    rw [List.find?_append, hnone]
    simp
  · exact get_case_none_of_gt h (Nat.lt_succ_self _)
  · show (t.rows ++ [(⟨t.seq + 1, u, m, a, r, d⟩ : Case)]).map Case.case_id =
      List.range' 1 (t.seq + 1)
    rw [List.map_append, h, List.range'_concat]
    simp [Nat.add_comm]
  · intro db g g' hne
    show (if g' = g then _ else db g') = db g'
    rw [if_neg hne]

/-- Claim C2 witness: one concrete create/get round trip on a fresh table. -/
theorem C2_case_log_sequential_witness :
    (create_case CasesTable.empty 5 7 "warn" (some "spam") none).1.rows.length =
      CasesTable.empty.rows.length + 1 ∧
    get_case (create_case CasesTable.empty 5 7 "warn" (some "spam") none).1
        (create_case CasesTable.empty 5 7 "warn" (some "spam") none).2 =
      some ⟨(create_case CasesTable.empty 5 7 "warn" (some "spam") none).2,
        5, 7, "warn", some "spam", none⟩ := by
  have h := C2_case_log_sequential CasesTable.empty rfl 5 7 "warn" (some "spam") none
  exact ⟨h.1, h.2.2.2.1⟩

/-- Claim C10: the timeout command accepts only parsed durations with
`0 < seconds ≤ 2419200` (28 days); an unparsable duration or one outside the
range is rejected with an error reply before any case row is created or any
timeout applied, while an in-range duration creates exactly one case row. -/
theorem C10_timeout_duration_validation :
    max_timeout_seconds = 2419200 ∧
    (∀ (t : CasesTable) (u m : Nat) (r : Option String) (apiOk : Bool),
      timeout_command t u m none r apiOk = (t, .invalidFormat, false)) ∧
    (∀ (t : CasesTable) (u m : Nat) (s : Int) (r : Option String)
        (apiOk : Bool), ¬(0 < s ∧ s ≤ 2419200) →
      timeout_command t u m (some s) r apiOk = (t, .invalidDuration, false)) ∧
    (∀ (t : CasesTable) (u m : Nat) (s : Int) (r : Option String)
        (apiOk : Bool), 0 < s → s ≤ 2419200 →
      (timeout_command t u m (some s) r apiOk).1.rows.length =
        t.rows.length + 1) := by
  have hmax : max_timeout_seconds = 2419200 := by decide
  refine ⟨hmax, fun t u m r apiOk => rfl, ?_, ?_⟩
  · intro t u m s r apiOk hrange
    simp only [timeout_command]
    rw [if_neg (by rw [hmax]; exact hrange)]
  · intro t u m s r apiOk h0 h28
    simp only [timeout_command]
    rw [if_pos ⟨h0, by rw [hmax]; exact h28⟩]
    cases apiOk <;> simp [create_case]

/-- Claim C10 witness: a 28-days-plus-one-second duration is rejected with
the table untouched; a one-minute duration creates a case row. -/
theorem C10_timeout_duration_validation_witness :
    timeout_command CasesTable.empty 1 2 (some 2419201) none true =
      (CasesTable.empty, .invalidDuration, false) ∧
    (timeout_command CasesTable.empty 1 2 (some 60) none true).1.rows.length =
      CasesTable.empty.rows.length + 1 :=
  ⟨C10_timeout_duration_validation.2.2.1 CasesTable.empty 1 2 2419201 none true
      (by omega),
    C10_timeout_duration_validation.2.2.2 CasesTable.empty 1 2 60 none true
      (by omega) (by omega)⟩

/-- Claim C3: in every store reachable by a sequence of prefix operations,
the active prefix list of a guild consists of the default prefix plus
exactly the stored custom prefixes of that guild; adding an already-stored
prefix (or the default) is rejected without changing state; removing the
default prefix is always rejected. -/
theorem C3_prefix_invariants (ops : List PrefixOp) (g : Nat) :
    (∀ s, s ∈ get_all_prefixes (runPrefixOps ops) g ↔
      (s = default_prefix_val ∨ (g, s) ∈ runPrefixOps ops)) ∧
    (∀ p, ((g, p) ∈ runPrefixOps ops ∨ p = default_prefix_val) →
      (add_new_prefix_cmd (runPrefixOps ops) g p).1 = runPrefixOps ops ∧
      (add_new_prefix_cmd (runPrefixOps ops) g p).2 ≠ PrefixReply.added) ∧
    remove_existing_prefix_cmd (runPrefixOps ops) g default_prefix_val =
      (runPrefixOps ops, PrefixReply.cannotRemoveDefault) := by
  refine ⟨mem_get_all_prefixes _ g, fun p hp => add_new_prefix_cmd_rejected hp, ?_⟩
  unfold remove_existing_prefix_cmd
  rw [if_pos rfl]

/-- Claim C3 witness: with one stored custom prefix "!", the active list
contains it, re-adding it is rejected unchanged, and removing the default
is refused. -/
theorem C3_prefix_invariants_witness :
    "!" ∈ get_all_prefixes (runPrefixOps [PrefixOp.add 1 "!"]) 1 ∧
    (add_new_prefix_cmd (runPrefixOps [PrefixOp.add 1 "!"]) 1 "!").1 =
      runPrefixOps [PrefixOp.add 1 "!"] ∧
    (add_new_prefix_cmd (runPrefixOps [PrefixOp.add 1 "!"]) 1 "!").2 ≠
      PrefixReply.added ∧
    remove_existing_prefix_cmd (runPrefixOps [PrefixOp.add 1 "!"]) 1
        default_prefix_val =
      (runPrefixOps [PrefixOp.add 1 "!"], PrefixReply.cannotRemoveDefault) := by
  have h := C3_prefix_invariants [PrefixOp.add 1 "!"] 1
  have hmem : ((1 : Nat), "!") ∈ runPrefixOps [PrefixOp.add 1 "!"] := by decide
  exact ⟨(h.1 "!").mpr (Or.inr hmem), (h.2.1 "!" (Or.inl hmem)).1,
    (h.2.1 "!" (Or.inl hmem)).2, h.2.2⟩

/-- Claim C4: in every reachable store a guild holds at most 9 custom
prefixes, and with exactly 9 stored every further well-formed prefix is
rejected with the maximum-reached reply and nothing is stored. -/
theorem C4_prefix_custom_bound (ops : List PrefixOp) (g : Nat) :
    guildPrefixCount (runPrefixOps ops) g ≤ 9 ∧
    (guildPrefixCount (runPrefixOps ops) g = 9 →
      ∀ p, p ≠ "" → p.length ≤ 10 →
        add_new_prefix_cmd (runPrefixOps ops) g p =
          (runPrefixOps ops, PrefixReply.maxReached)) :=
  ⟨runPrefixOps_count_le ops g,
    fun h9 _ hne hlen => add_new_prefix_cmd_max h9 hne hlen⟩

/-- Claim C4 witness: after adding nine custom prefixes a tenth is rejected
with the maximum-reached reply and the store is unchanged. -/
theorem C4_prefix_custom_bound_witness :
    add_new_prefix_cmd
        (runPrefixOps ((List.range 9).map (fun i => PrefixOp.add 1 (toString i))))
        1 "!" =
      (runPrefixOps ((List.range 9).map (fun i => PrefixOp.add 1 (toString i))),
        PrefixReply.maxReached) :=
  (C4_prefix_custom_bound ((List.range 9).map (fun i => PrefixOp.add 1 (toString i))) 1).2
    (by decide) "!" (by decide) (by decide)

/-! ## Helper lemmas for the vocabulary store -/

/-- ASCII lowercasing is idempotent. -/
theorem asciiLower_idem (b : Nat) : asciiLower (asciiLower b) = asciiLower b := by
  unfold asciiLower
  by_cases h : 65 ≤ b ∧ b ≤ 90
  · rw [if_pos h, if_neg (by omega)]
  · simp only [if_neg h]

/-- Whitespace bytes are untouched by lowercasing. -/
theorem asciiLower_space {b : Nat} (h : isPySpace b = true) :
    asciiLower b = b := by
  simp only [isPySpace, Bool.or_eq_true, beq_iff_eq] at h
  unfold asciiLower
  rw [if_neg (by omega)]

/-- Stripping only removes elements. -/
theorem pyStrip_sublist (l : List Nat) : (pyStrip l).Sublist l := by
  unfold pyStrip
  have h1 : (l.dropWhile isPySpace).Sublist l := List.dropWhile_sublist _
  have h2 : ((l.dropWhile isPySpace).reverse.dropWhile isPySpace).Sublist
      (l.dropWhile isPySpace).reverse := List.dropWhile_sublist _
  have h3 := h2.reverse
  rw [List.reverse_reverse] at h3
  exact h3.trans h1

/-- A list whose elements are all fixed by `asciiLower` is fixed by
`pyLower`. -/
theorem pyLower_eq_self_of_mem {l : List Nat}
    (h : ∀ b ∈ l, asciiLower b = b) : pyLower l = l := by
  unfold pyLower
  induction l with
  | nil => rfl
  | cons a as ih =>
    rw [List.map_cons, h a (List.mem_cons_self a as),
      ih (fun b hb => h b (List.mem_cons_of_mem a hb))]

/-- A cleaned word is entirely lowercase. -/
theorem pyLower_cleanWord (w : List Nat) :
    pyLower (cleanWord w) = cleanWord w := by
  apply pyLower_eq_self_of_mem
  intro b hb
  have hbl : b ∈ pyLower w := (pyStrip_sublist (pyLower w)).subset hb
  rcases List.mem_map.mp hbl with ⟨a, _, rfl⟩
  exact asciiLower_idem a

/-- Dropping a satisfied block from the front of a concatenation. -/
theorem dropWhile_append_of_all {p : Nat → Bool} :
    ∀ {ws : List Nat}, (∀ b ∈ ws, p b = true) →
      ∀ l : List Nat, (ws ++ l).dropWhile p = l.dropWhile p := by
  intro ws
  induction ws with
  | nil => intro _ l; rfl
  | cons a as ih =>
    intro h l
    rw [List.cons_append, List.dropWhile_cons,
      if_pos (h a (List.mem_cons_self a as))]
    exact ih (fun b hb => h b (List.mem_cons_of_mem a hb)) l

/-- A fully satisfied list is dropped entirely. -/
theorem dropWhile_eq_nil_of_all {p : Nat → Bool} {ws : List Nat}
    (h : ∀ b ∈ ws, p b = true) : ws.dropWhile p = [] := by
  have hx := dropWhile_append_of_all h ([] : List Nat)
  rw [List.append_nil] at hx
  exact hx

/-- Stripping is insensitive to surrounding whitespace. -/
theorem pyStrip_pad (ws l ws' : List Nat)
    (hws : ∀ b ∈ ws, isPySpace b = true)
    (hws' : ∀ b ∈ ws', isPySpace b = true) :
    pyStrip (ws ++ l ++ ws') = pyStrip l := by
  rw [List.append_assoc]
  have hleft : pyStrip (ws ++ (l ++ ws')) = pyStrip (l ++ ws') := by
    unfold pyStrip
    rw [dropWhile_append_of_all hws]
  rw [hleft]
  unfold pyStrip
  rw [List.dropWhile_append]
  by_cases hnil : (l.dropWhile isPySpace).isEmpty = true
  · rw [if_pos hnil, dropWhile_eq_nil_of_all hws',
      List.isEmpty_iff.mp hnil]
  · rw [if_neg hnil]
    have hwsrev : ∀ b ∈ ws'.reverse, isPySpace b = true :=
      fun b hb => hws' b (List.mem_reverse.mp hb)
    rw [List.reverse_append, dropWhile_append_of_all hwsrev]

/-- `save_word` either changes nothing or appends exactly the cleaned pair. -/
theorem save_word_result (db : VocabDb) (u : Nat) (w : List Nat) :
    (save_word db u w).1 = db ∨
    (save_word db u w).1 = db ++ [(u, cleanWord w)] := by
  unfold save_word
  dsimp only
  split_ifs <;> simp

/-- After a save of a non-empty cleaned word, the cleaned pair is stored. -/
theorem save_word_mem (db : VocabDb) (u : Nat) (w : List Nat)
    (h : cleanWord w ≠ []) : (u, cleanWord w) ∈ (save_word db u w).1 := by
  unfold save_word
  dsimp only
  rw [if_neg h]
  by_cases hmem : (u, cleanWord w) ∈ db
  · rw [if_pos hmem]; exact hmem
  · rw [if_neg hmem]
    exact List.mem_append.mpr (Or.inr (List.mem_singleton.mpr rfl))

/-- A pair already stored is reported as already saved, unchanged. -/
theorem save_word_dup {db : VocabDb} {u : Nat} {w : List Nat}
    (hne : cleanWord w ≠ []) (hmem : (u, cleanWord w) ∈ db) :
    save_word db u w = (db, .alreadySaved) := by
  unfold save_word
  dsimp only
  rw [if_neg hne, if_pos hmem]

/-- Every word in a reachable vocabulary store is lowercase. -/
theorem runSaves_lowercase (ops : List (Nat × List Nat)) :
    ∀ e ∈ runSaves ops, pyLower e.2 = e.2 := by
  unfold runSaves
  suffices hgen : ∀ db : VocabDb, (∀ e ∈ db, pyLower e.2 = e.2) →
      ∀ e ∈ ops.foldl (fun db op => (save_word db op.1 op.2).1) db,
        pyLower e.2 = e.2 by
    exact hgen [] (by simp)
  induction ops with
  | nil => intro db h; exact h
  | cons op rest ih =>
    intro db h
    apply ih
    dsimp only
    rcases save_word_result db op.1 op.2 with heq | heq <;> rw [heq]
    · exact h
    · intro e he
      rcases List.mem_append.mp he with he | he
      · exact h e he
      · rw [List.mem_singleton.mp he]
        exact pyLower_cleanWord op.2

/-- Characterization of byte-wise lexicographic comparison on a cons pair. -/
theorem lexLe_cons_iff {x y : Nat} {xs ys : List Nat} :
    lexLe (x :: xs) (y :: ys) = true ↔
      x < y ∨ (x = y ∧ lexLe xs ys = true) := by
  by_cases h1 : x < y
  · simp [lexLe, h1]
  · by_cases h2 : y < x
    · simp only [lexLe, if_neg h1, if_pos h2]
      constructor
      · intro hcontra; exact absurd hcontra Bool.false_ne_true
      · rintro (hlt | ⟨heq, _⟩) <;> omega
    · have hxy : x = y := by omega
      subst hxy
      simp [lexLe, h1, h2]

/-- Totality of the BINARY collation order. -/
theorem lexLe_total (a b : List Nat) : lexLe a b = true ∨ lexLe b a = true := by
  induction a generalizing b with
  | nil => exact Or.inl rfl
  | cons x xs ih =>
    cases b with
    | nil => exact Or.inr rfl
    | cons y ys =>
      by_cases hxy : x < y
      · exact Or.inl (lexLe_cons_iff.mpr (Or.inl hxy))
      · by_cases hyx : y < x
        · exact Or.inr (lexLe_cons_iff.mpr (Or.inl hyx))
        · have hxx : x = y := by omega
          subst hxx
          rcases ih ys with h | h
          · exact Or.inl (lexLe_cons_iff.mpr (Or.inr ⟨rfl, h⟩))
          · exact Or.inr (lexLe_cons_iff.mpr (Or.inr ⟨rfl, h⟩))

/-- Transitivity of the BINARY collation order. -/
theorem lexLe_trans : ∀ {a b c : List Nat},
    lexLe a b = true → lexLe b c = true → lexLe a c = true := by
  intro a
  induction a with
  | nil => intro b c _ _; rfl
  | cons x xs ih =>
    intro b c h1 h2
    cases b with
    | nil => exact absurd h1 (by simp [lexLe])
    | cons y ys =>
      cases c with
      | nil => exact absurd h2 (by simp [lexLe])
      | cons z zs =>
        rcases lexLe_cons_iff.mp h1 with hxy | ⟨rfl, hxs⟩
        · rcases lexLe_cons_iff.mp h2 with hyz | ⟨rfl, hys⟩
          · exact lexLe_cons_iff.mpr (Or.inl (by omega))
          · exact lexLe_cons_iff.mpr (Or.inl hxy)
        · rcases lexLe_cons_iff.mp h2 with hyz | ⟨rfl, hys⟩
          · exact lexLe_cons_iff.mpr (Or.inl hyz)
          · exact lexLe_cons_iff.mpr (Or.inr ⟨rfl, ih hxs hys⟩)

instance : IsTotal (List Nat) (fun a b => lexLe a b = true) :=
  ⟨lexLe_total⟩

instance : IsTrans (List Nat) (fun a b => lexLe a b = true) :=
  ⟨fun _ _ _ h1 h2 => lexLe_trans h1 h2⟩

/-- Claim C5: a first save of a word (non-empty once cleaned) inserts
exactly one row; a second save of the same cleaned word by the same user
inserts nothing and reports "already saved"; the vocab list is exactly the
user's stored words, sorted by the BINARY collation. -/
theorem C5_vocab_save_list (db : VocabDb) (u : Nat) (w : List Nat)
    (hclean : cleanWord w ≠ []) (hnew : (u, cleanWord w) ∉ db) :
    save_word db u w = (db ++ [(u, cleanWord w)], .saved) ∧
    (∀ w', cleanWord w' = cleanWord w →
      save_word (db ++ [(u, cleanWord w)]) u w' =
        (db ++ [(u, cleanWord w)], .alreadySaved)) ∧
    (∀ (d : VocabDb) (v : Nat),
      List.Sorted (fun a b => lexLe a b = true) (list_vocab d v) ∧
      (list_vocab d v).Perm
        ((d.filter (fun e => e.1 == v)).map (fun e => e.2))) := by
  refine ⟨?_, ?_, ?_⟩
  · unfold save_word
    dsimp only
    rw [if_neg hclean, if_neg hnew]
  · intro w' hw'
    have hmem : (u, cleanWord w') ∈ db ++ [(u, cleanWord w)] := by
      rw [hw']
      exact List.mem_append.mpr (Or.inr (List.mem_singleton.mpr rfl))
    have hne' : cleanWord w' ≠ [] := by rw [hw']; exact hclean
    exact save_word_dup hne' hmem
  · intro d v
    exact ⟨List.sorted_insertionSort _ _, List.perm_insertionSort _ _⟩

/-- Claim C5 witness: saving "cat" twice for user 1 on an empty store. -/
theorem C5_vocab_save_list_witness :
    save_word [] 1 [99, 97, 116] = ([(1, [99, 97, 116])], .saved) ∧
    save_word [(1, [99, 97, 116])] 1 [99, 97, 116] =
      ([(1, [99, 97, 116])], .alreadySaved) := by
  have h := C5_vocab_save_list [] 1 [99, 97, 116] (by decide) (by decide)
  have h1 := h.1
  have h2 := h.2.1 [99, 97, 116] rfl
  constructor
  · rw [h1]
    rfl
  · have : ([] : VocabDb) ++ [(1, cleanWord [99, 97, 116])] =
        [(1, [99, 97, 116])] := by decide
    rw [this] at h2
    rw [h2]

/-- Claim C9: words are normalized (lowercased and stripped) before storage:
cleaning is insensitive to letter case and to surrounding whitespace, a
re-save of any case/whitespace variant is reported as already saved, every
word in a reachable store (hence every listed word) is lowercase, and a word
that is empty after stripping is rejected without a database write. -/
theorem C9_vocab_normalization :
    (∀ w1 w2 : List Nat, pyLower w1 = pyLower w2 →
      cleanWord w1 = cleanWord w2) ∧
    (∀ ws w ws' : List Nat, (∀ b ∈ ws, isPySpace b = true) →
      (∀ b ∈ ws', isPySpace b = true) →
      cleanWord (ws ++ w ++ ws') = cleanWord w) ∧
    (∀ (db : VocabDb) (u : Nat) (w w' : List Nat), cleanWord w ≠ [] →
      cleanWord w' = cleanWord w →
      save_word (save_word db u w).1 u w' =
        ((save_word db u w).1, .alreadySaved)) ∧
    (∀ (ops : List (Nat × List Nat)) (u : Nat),
      ∀ w ∈ list_vocab (runSaves ops) u, pyLower w = w) ∧
    (∀ (db : VocabDb) (u : Nat) (w : List Nat), cleanWord w = [] →
      save_word db u w = (db, .emptyWord)) := by
  refine ⟨?_, ?_, ?_, ?_, ?_⟩
  · intro w1 w2 h
    unfold cleanWord
    rw [h]
  · intro ws w ws' hws hws'
    unfold cleanWord pyLower
    rw [List.map_append, List.map_append]
    apply pyStrip_pad
    · intro b hb
      rcases List.mem_map.mp hb with ⟨a, ha, rfl⟩
      rw [asciiLower_space (hws a ha)]
      exact hws a ha
    · intro b hb
      rcases List.mem_map.mp hb with ⟨a, ha, rfl⟩
      rw [asciiLower_space (hws' a ha)]
      exact hws' a ha
  · intro db u w w' hne hw'
    have hmem : (u, cleanWord w') ∈ (save_word db u w).1 := by
      rw [hw']
      exact save_word_mem db u w hne
    have hne' : cleanWord w' ≠ [] := by rw [hw']; exact hne
    exact save_word_dup hne' hmem
  · intro ops u w hw
    have hperm := List.perm_insertionSort
      (fun a b => lexLe a b = true)
      (((runSaves ops).filter (fun e => e.1 == u)).map (fun e => e.2))
    have hw' : w ∈ ((runSaves ops).filter (fun e => e.1 == u)).map
        (fun e => e.2) := hperm.mem_iff.mp hw
    rcases List.mem_map.mp hw' with ⟨e, he, rfl⟩
    exact runSaves_lowercase ops e (List.mem_filter.mp he).1
  · intro db u w h
    unfold save_word
    dsimp only
    rw [if_pos h]

/-- Claim C9 witness: "Hello " (with trailing blank and capital) then
"hello" count as the same word for user 1. -/
theorem C9_vocab_normalization_witness :
    save_word (save_word [] 1 [72, 101, 108, 108, 111, 32]).1 1
        [104, 101, 108, 108, 111] =
      ((save_word [] 1 [72, 101, 108, 108, 111, 32]).1, .alreadySaved) :=
  C9_vocab_normalization.2.2.1 [] 1 [72, 101, 108, 108, 111, 32]
    [104, 101, 108, 108, 111] (by decide) (by decide)

/-! ## Helper lemmas for the music state machine -/

/-- One `play_next` step on a non-empty queue pops and plays the head. -/
theorem playNextStep_cons {st : GuildMusicState} {t : Track}
    {rest : List Track} (hq : st.queue = t :: rest) :
    playNextStep st = { st with queue := rest, current_track := some t } := by
  simp [playNextStep, play_next, hq]

/-- One `play_next` step on an empty queue with autoplay off schedules the
disconnect task. -/
theorem playNextStep_nil {st : GuildMusicState} (hq : st.queue = [])
    (hauto : st.autoplay = false) :
    playNextStep st =
      { st with current_track := none, disconnect_task := true } := by
  simp [playNextStep, play_next, hq, hauto]

/-- Claim C6: with a connected player, each `play_next` call removes exactly
the head of the queue and plays it; starting from N queued tracks and
autoplay off, N+1 calls leave the queue empty with the disconnect task
scheduled; the inactivity window is the fixed 30 seconds; and the timed
disconnect disconnects the player and destroys the guild's music state. -/
theorem C6_music_queue_drain :
    (∀ (st : GuildMusicState) (t : Track) (rest : List Track)
        (pick : Option Track), st.queue = t :: rest →
      play_next true pick st =
        ({ st with queue := rest, current_track := some t }, some t)) ∧
    (∀ (n : Nat) (st : GuildMusicState), st.autoplay = false →
      st.queue.length = n →
      (playNextStep^[n + 1] st).queue = [] ∧
      (playNextStep^[n + 1] st).disconnect_task = true) ∧
    disconnect_timeout_seconds = 30 ∧
    (∀ (states : List (Nat × GuildMusicState)) (g : Nat),
      (disconnect_after_timeout states g true).2 = true ∧
      ∀ e ∈ (disconnect_after_timeout states g true).1, e.1 ≠ g) := by
  refine ⟨?_, ?_, rfl, ?_⟩
  · intro st t rest pick hq
    simp [play_next, hq]
  · intro n
    induction n with
    | zero =>
      intro st hauto hlen
      have hq : st.queue = [] := List.eq_nil_of_length_eq_zero hlen
      rw [Function.iterate_one, playNextStep_nil hq hauto]
      exact ⟨hq, rfl⟩
    | succ n ih =>
      intro st hauto hlen
      obtain ⟨t, rest, hq⟩ : ∃ t rest, st.queue = t :: rest := by
        cases hqe : st.queue with
        | nil => rw [hqe] at hlen; simp at hlen
        | cons a as => exact ⟨a, as, rfl⟩
      rw [show n + 1 + 1 = Nat.succ (n + 1) from rfl,
        Function.iterate_succ_apply, playNextStep_cons hq]
      apply ih
      · exact hauto
      · have hlen' := congrArg List.length hq
        rw [hlen] at hlen'
        simp at hlen'
        exact hlen'.symm
  · intro states g
    refine ⟨rfl, ?_⟩
    intro e he
    have hp := (List.mem_filter.mp he).2
    simp at hp
    exact hp

/-- Claim C6 witness: two queued tracks, three `play_next` calls. -/
theorem C6_music_queue_drain_witness :
    (playNextStep^[3]
      (⟨[⟨1⟩, ⟨2⟩], 50, false, false, none⟩ : GuildMusicState)).queue = [] ∧
    (playNextStep^[3]
      (⟨[⟨1⟩, ⟨2⟩], 50, false, false, none⟩ : GuildMusicState)).disconnect_task =
      true :=
  C6_music_queue_drain.2.1 2
    (⟨[⟨1⟩, ⟨2⟩], 50, false, false, none⟩ : GuildMusicState) rfl rfl

/-- Claim C1: a kick/ban performs its side effects (member removal, case
row) only when the invoking user reacts with exactly ✅ on the confirmation
message within the window — on ❌, timeout or any non-qualifying reaction
the state is completely unchanged; restart and shutdown replace/close the
process exactly when the first qualifying message is the exact random code,
and otherwise only cancel. -/
theorem C1_confirmation_gating :
    (∀ (st : ModActionState) (author msgId : Nat)
        (events : List ReactionEvent) (action : String) (target : Nat)
        (reason : Option String) (apiOk : Bool),
      kick_ban_command st author msgId events action target reason apiOk ≠
          (st, false) →
      ∃ r, waitForReaction author msgId events = some r ∧ r.emoji = "✅" ∧
        r.user = author ∧ r.messageId = msgId) ∧
    (∀ (st : ModActionState) (author msgId : Nat)
        (events : List ReactionEvent) (action : String) (target : Nat)
        (reason : Option String) (apiOk : Bool),
      prompt_confirmation author msgId events = false →
      kick_ban_command st author msgId events action target reason apiOk =
        (st, false)) ∧
    (∀ (author channel : Nat) (code : String) (events : List MessageEvent),
      restart_command author channel code events = .restarted ↔
        ∃ msg, waitForMessage author channel events = some msg ∧
          msg.content = code) ∧
    (∀ (author channel : Nat) (code : String) (events : List MessageEvent),
      shutdown_command author channel code events = .shutdownDone ↔
        ∃ msg, waitForMessage author channel events = some msg ∧
          msg.content = code) := by
  have h2 : ∀ (st : ModActionState) (author msgId : Nat)
      (events : List ReactionEvent) (action : String) (target : Nat)
      (reason : Option String) (apiOk : Bool),
      prompt_confirmation author msgId events = false →
      kick_ban_command st author msgId events action target reason apiOk =
        (st, false) := by
    intro st author msgId events action target reason apiOk hfalse
    unfold kick_ban_command
    rw [hfalse]
    simp
  refine ⟨?_, h2, ?_, ?_⟩
  · intro st author msgId events action target reason apiOk hne
    rcases Bool.eq_false_or_eq_true
        (prompt_confirmation author msgId events) with hb | hb
    · unfold prompt_confirmation at hb
      cases hw : waitForReaction author msgId events with
      | none => rw [hw] at hb; simp at hb
      | some r =>
        rw [hw] at hb
        have hcheck := List.find?_some hw
        unfold reactionCheck at hcheck
        simp only [Bool.and_eq_true, beq_iff_eq] at hcheck
        exact ⟨r, rfl, by simpa using hb, hcheck.1.1, hcheck.1.2⟩
    · exact absurd (h2 st author msgId events action target reason apiOk hb) hne
  · intro author channel code events
    constructor
    · intro h
      unfold restart_command at h
      cases hw : waitForMessage author channel events with
      | none => rw [hw] at h; simp at h
      | some msg =>
        rw [hw] at h
        by_cases hcode : (msg.content == code) = true
        · exact ⟨msg, rfl, by simpa using hcode⟩
        · simp [hcode] at h
    · rintro ⟨msg, hw, hcode⟩
      unfold restart_command
      rw [hw]
      simp [hcode]
  · intro author channel code events
    constructor
    · intro h
      unfold shutdown_command at h
      cases hw : waitForMessage author channel events with
      | none => rw [hw] at h; simp at h
      | some msg =>
        rw [hw] at h
        by_cases hcode : (msg.content == code) = true
        · exact ⟨msg, rfl, by simpa using hcode⟩
        · simp [hcode] at h
    · rintro ⟨msg, hw, hcode⟩
      unfold shutdown_command
      rw [hw]
      simp [hcode]

/-- Claim C1 witness: a ✅ reaction from the invoker confirms; a ❌ reaction
cancels with the state unchanged; typing the exact code restarts. -/
theorem C1_confirmation_gating_witness :
    (∃ r, waitForReaction 1 10 [⟨1, 10, "✅"⟩] = some r ∧ r.emoji = "✅" ∧
      r.user = 1 ∧ r.messageId = 10) ∧
    kick_ban_command ⟨CasesTable.empty, true⟩ 1 10 [⟨1, 10, "❌"⟩] "kick" 5
        none true =
      (⟨CasesTable.empty, true⟩, false) ∧
    restart_command 1 2 "123456" [⟨1, 2, "123456"⟩] = .restarted :=
  ⟨C1_confirmation_gating.1 ⟨CasesTable.empty, true⟩ 1 10 [⟨1, 10, "✅"⟩]
      "kick" 5 none true (by decide),
    C1_confirmation_gating.2.1 ⟨CasesTable.empty, true⟩ 1 10 [⟨1, 10, "❌"⟩]
      "kick" 5 none true (by decide),
    (C1_confirmation_gating.2.2.1 1 2 "123456" [⟨1, 2, "123456"⟩]).mpr
      ⟨⟨1, 2, "123456"⟩, by decide, rfl⟩⟩

/-- Claim C7 counterexample: `play` is a known command, but its cog
(MusicCog) overrides `cog_command_error`, so for a missing required
argument the global handler returns before sending anything — no
usage-hint reply is produced, contrary to the claim's "for every known
command". -/
theorem C7_counterexample :
    on_command_error ⟨42, some ("play", "<query>"), "play", "i.", false, true⟩
      (.missingRequiredArgument "query") = none := rfl

/-- Claim C7 (amended): an unknown command always produces no reply from
the global handler; a known command with no command-local and no cog-local
error handler produces, on a missing required argument, a usage hint that
names the missing parameter and shows the command's signature. -/
theorem C7_error_handler (ctx : ErrCtx) :
    on_command_error ctx .commandNotFound = none ∧
    (∀ (param name signature : String),
      ctx.commandHasLocalHandler = false →
      ctx.cogHasErrorHandler = false →
      ctx.command = some (name, signature) →
      on_command_error ctx (.missingRequiredArgument param) =
        some ⟨"❌ Missing Argument",
          "You missed the required argument: `" ++ param ++ "`.",
          [("Correct Usage",
            codeBlock (usageSignature ctx.cleanPrefix name signature))]⟩) := by
  constructor
  · unfold on_command_error
    split_ifs <;> rfl
  · intro param name signature h1 h2 hcmd
    simp [on_command_error, h1, h2, hcmd]

/-- Claim C7 witness: the kick command with a missing member argument gets
the usage-hint reply. -/
theorem C7_error_handler_witness :
    on_command_error
        ⟨7, some ("kick", "<member> [reason]"), "kick", "i.", false, false⟩
        (.missingRequiredArgument "member") =
      some ⟨"❌ Missing Argument",
        "You missed the required argument: `" ++ "member" ++ "`.",
        [("Correct Usage",
          codeBlock (usageSignature "i." "kick" "<member> [reason]"))]⟩ :=
  (C7_error_handler
      ⟨7, some ("kick", "<member> [reason]"), "kick", "i.", false, false⟩).2
    "member" "kick" "<member> [reason]" rfl rfl rfl

/-- Claim C8 counterexample: with no credential configured the cog is never
loaded, so invoking `eng check` is an unknown command — no AI call, but
also no reply at all, not an unavailable-feature message. -/
theorem C8_counterexample :
    invokeAICommand none true (some "ok") = ⟨false, none⟩ := rfl

/-- Claim C8 (amended): with no credential (unset or empty) the cog is not
loaded, so an AI command performs no AI call and produces no reply; the
unavailable-feature message is produced exactly when a credential is set
but the model failed to initialize — then too no AI call is made. -/
theorem C8_ai_gating :
    (∀ (key : Option String) (modelInitOk : Bool) (resp : Option String),
      keyTruthy key = false →
      invokeAICommand key modelInitOk resp = ⟨false, none⟩) ∧
    (∀ (key : Option String) (resp : Option String), keyTruthy key = true →
      invokeAICommand key false resp = ⟨false, some unavailableMessage⟩) := by
  constructor
  · intro key modelInitOk resp h
    simp [invokeAICommand, engCogLoaded, h]
  · intro key resp h
    simp [invokeAICommand, engCogLoaded, h, ai_command_check, modelPresent]

/-- Claim C8 witness: credential set but model init failed yields the
unavailable message with no AI call. -/
theorem C8_ai_gating_witness :
    invokeAICommand (some "k") false (some "ok") =
      ⟨false, some unavailableMessage⟩ :=
  C8_ai_gating.2 (some "k") (some "ok") rfl

end Roxy
